import Mathlib

/-!
Verification of the core audio pipeline of AudioAnalyzerFFT (src/src/main.rs)
against its natural-language specification.

The program captures audio samples, accumulates them into windows of
`FFT_SIZE = 1024` samples, computes a forward FFT on each completed window,
log-scales the magnitudes of the first `FFT_SIZE / 2` bins, and publishes the
(waveform, spectrum) pair into a mutex-guarded `AudioData` shared with the UI.

Embedding conventions:
- `f32` samples are idealized as real numbers (`ℝ`); `f32::log10` is
  `Real.logb 10` (note: Mathlib defines `Real.log 0 = 0`, whereas IEEE gives
  `-∞`; every theorem below that touches `logb` at `0` is commented on).
- The `rustfft` forward FFT of a length-`N` buffer is the unnormalized
  discrete Fourier transform `X_k = ∑ n, x_n · exp (-2πi·k·n/N)`, which is
  what `FftPlanner::plan_fft_forward` computes.
- The per-sample callback body (main.rs lines 107–125) becomes a pure step
  function `pushSample` on an explicit `StreamState`; the mutex-guarded
  publish is one atomic field update of that state, and the history of
  publishes is recorded in a ghost field `published`.
- Panics (`expect` / `unwrap`) in the startup path are embedded as `Except`
  errors.
-/

namespace AudioAnalyzerFFT

/-- Window size, main.rs line 7: `const FFT_SIZE: usize = 1024;`. -/
def FFT_SIZE : Nat := 1024

/-- The shared store, main.rs lines 60–63: `struct AudioData { waveform: Vec<f32>, spectrum: Vec<f32> }`. -/
structure AudioData where
  waveform : List ℝ
  spectrum : List ℝ

/-- Initial store, main.rs lines 65–72: `AudioData::new` builds
`vec![0.0; FFT_SIZE]` and `vec![0.0; FFT_SIZE / 2]`. -/
def AudioData.new : AudioData :=
  { waveform := List.replicate FFT_SIZE 0
    spectrum := List.replicate (FFT_SIZE / 2) 0 }

/-- The forward DFT of a real buffer, as computed by
`FftPlanner::<f32>::new().plan_fft_forward(FFT_SIZE)` applied at
main.rs lines 112–114 to `buffer.iter().map(|&x| Complex32::new(x, 0.0))`:
bin `k` is `∑ n, x_n · exp (-2πi·k·n/N)` with `N` the buffer length. -/
noncomputable def dft (w : List ℝ) (k : ℕ) : ℂ :=
  ∑ n in Finset.range w.length,
    (w.getD n 0 : ℂ) * Complex.exp (-(2 * Real.pi * Complex.I * k * n) / w.length)

/-- The per-bin display scaling of main.rs line 118:
`(input[i].norm().log10() + 1.0) * 10.0` — the `1.0` is added AFTER the
logarithm of the magnitude. -/
noncomputable def scale (m : ℝ) : ℝ :=
  (Real.logb 10 m + 1) * 10

/-- The spectrum computed from a completed buffer, main.rs lines 112–119:
`FFT_SIZE / 2` values, bin `i` holding `scale` of the magnitude (Euclidean
norm) of the `i`-th FFT output. -/
noncomputable def spectrumList (w : List ℝ) : List ℝ :=
  (List.range (FFT_SIZE / 2)).map fun i => scale (Complex.abs (dft w i))

/-- Modelled from the spec (§4.3, §9): the scaling the specification
prescribes, `log10(magnitude + 1.0) * 10.0` — the `1.0` added BEFORE the
logarithm. Kept separate from `scale` (the code's formula) so the two can be
compared. -/
noncomputable def scaleSpec (m : ℝ) : ℝ :=
  Real.logb 10 (m + 1) * 10

/-- `num_traits::ToPrimitive::to_f32` as applied at main.rs line 108. The
data callback is declared `move |data: &[f32], _|` (line 106), so every
delivered sample is already an `f32`, for which `to_f32` returns
`Some(self)` unchanged — a numeric cast, never a rescaling. -/
def to_f32 (x : ℝ) : Option ℝ :=
  some x

/-- The value stored into the buffer for one delivered sample, main.rs
line 108: `sample.to_f32().unwrap()`. The `unwrap` of the always-`some`
result is embedded as `Option.getD`. -/
def normalizeSample (x : ℝ) : ℝ :=
  (to_f32 x).getD 0

/-- The mutable state of the capture thread, main.rs lines 99–125: the
reused FFT input buffer, the write cursor `index`, and the mutex-guarded
shared `AudioData`. `published` is a ghost history recording every pair
ever written to the shared store under the lock (lines 121–123), in order. -/
structure StreamState where
  buffer : List ℝ
  index : ℕ
  store : AudioData
  published : List AudioData

/-- State at stream start, main.rs lines 99–100 (`buffer` of `FFT_SIZE`
zeros, `index = 0`) together with the shared store as created at
main.rs line 10 (`AudioData::new()`), before any publish. -/
def initState : StreamState :=
  { buffer := List.replicate FFT_SIZE 0
    index := 0
    store := AudioData.new
    published := [] }

/-- One iteration of the per-sample loop of the data callback, main.rs
lines 107–125: store the converted sample at `index`, advance the cursor;
when the cursor reaches `FFT_SIZE`, FFT the buffer, derive the spectrum,
overwrite both fields of the shared store under one lock, and reset the
cursor to 0. -/
noncomputable def pushSample (s : StreamState) (x : ℝ) : StreamState :=
  let buf := s.buffer.set s.index (normalizeSample x)
  let idx := s.index + 1
  if FFT_SIZE ≤ idx then
    let snap : AudioData := { waveform := buf, spectrum := spectrumList buf }
    { buffer := buf, index := 0, store := snap, published := s.published ++ [snap] }
  else
    { buffer := buf, index := idx, store := s.store, published := s.published }

/-- The capture thread's effect of processing a sequence of delivered
samples starting from the fresh state. Hardware buffers are delivered as
slices and every sample of every slice is processed individually in order
(main.rs line 107), so a run over several hardware buffers is the fold over
their concatenation. -/
noncomputable def runStream (samples : List ℝ) : StreamState :=
  samples.foldl pushSample initState

/-- The snapshot published when a window completes on an all-zero buffer. -/
noncomputable def zeroSnap : AudioData :=
  { waveform := List.replicate FFT_SIZE 0
    spectrum := spectrumList (List.replicate FFT_SIZE 0) }

/-- Sample formats as reported by cpal and dispatched at main.rs
lines 83–88. -/
inductive SampleFormat
  | F32
  | I16
  | U16
  | Other
  deriving DecidableEq, Repr

/-- An input device: what `start_audio_stream` consumes from it is its
default input config (main.rs line 77), if it reports one. -/
structure Device where
  defaultInputConfig : Option SampleFormat
  deriving DecidableEq, Repr

/-- A host: what `start_audio_stream` consumes from it is its default input
device (main.rs line 76), if one is available. -/
structure Host where
  defaultInputDevice : Option Device
  deriving DecidableEq, Repr

/-- The spec's startup error taxonomy (§7). In the code these failure modes
are panics; the embedding maps each panic site to its taxonomy name. -/
inductive AudioError
  | NoInputDeviceError
  | UnsupportedConfigError
  | StreamOpenError
  | StreamStartError
  deriving DecidableEq, Repr

/-- Witness that the background stream thread was spawned. -/
structure Launch where
  threadStarted : Bool
  deriving DecidableEq, Repr

/-- Startup, main.rs lines 74–90. `expect("No input device")` (line 76) and
the `unwrap` of `default_input_config` (line 77) panic on the caller's
thread BEFORE `std::thread::spawn` (line 82); both panics are embedded as
`Except.error` with their taxonomy names. When both succeed the stream
thread is spawned. -/
def start_audio_stream (h : Host) : Except AudioError Launch :=
  match h.defaultInputDevice with
  | none => .error .NoInputDeviceError
  | some d =>
    match d.defaultInputConfig with
    | none => .error .UnsupportedConfigError
    | some _ => .ok { threadStarted := true }

/-! ### Basic facts about the embedded definitions -/

lemma normalizeSample_eq (x : ℝ) : normalizeSample x = x := rfl

lemma sum_getD (w : List ℝ) :
    ∑ n in Finset.range w.length, w.getD n 0 = w.sum := by
  induction w with
  | nil => simp
  | cons a t ih =>
    rw [List.length_cons, Finset.sum_range_succ']
    simp only [List.getD_cons_succ, List.getD_cons_zero, List.sum_cons]
    rw [ih, add_comm]

/-- Bin 0 of the DFT is the plain sum of the window. -/
lemma dft_bin_zero (w : List ℝ) : dft w 0 = ((w.sum : ℝ) : ℂ) := by
  have h : dft w 0 = ∑ n in Finset.range w.length, (w.getD n 0 : ℂ) := by
    simp [dft]
  rw [h, ← Complex.ofReal_sum, sum_getD]

lemma getD_replicate_zero (N n : ℕ) : (List.replicate N (0:ℝ)).getD n 0 = 0 := by
  induction N generalizing n with
  | zero => simp
  | succ m ih =>
    cases n with
    | zero => simp
    | succ k => simp [List.replicate_succ, ih]

/-- Every DFT bin of the all-zero window is zero. -/
lemma dft_replicate_zero (N k : ℕ) : dft (List.replicate N (0:ℝ)) k = 0 := by
  unfold dft
  apply Finset.sum_eq_zero
  intro n _
  simp [getD_replicate_zero]

lemma spectrumList_length (w : List ℝ) : (spectrumList w).length = FFT_SIZE / 2 := by
  simp [spectrumList]

lemma spectrumList_getD (w : List ℝ) (i : ℕ) (hi : i < FFT_SIZE / 2) :
    (spectrumList w).getD i 0 = scale (Complex.abs (dft w i)) := by
  have hlen : i < (spectrumList w).length := by
    rw [spectrumList_length]
    exact hi
  rw [List.getD_eq_getElem _ _ hlen]
  simp [spectrumList]

/-! ### Invariants of the capture loop -/

lemma pushSample_index (s : StreamState) (x : ℝ) :
    (pushSample s x).index = if FFT_SIZE ≤ s.index + 1 then 0 else s.index + 1 := by
  by_cases h : FFT_SIZE ≤ s.index + 1 <;> simp [pushSample, h]

lemma pushSample_published_length (s : StreamState) (x : ℝ) :
    (pushSample s x).published.length =
      if FFT_SIZE ≤ s.index + 1 then s.published.length + 1 else s.published.length := by
  by_cases h : FFT_SIZE ≤ s.index + 1 <;> simp [pushSample, h]

lemma pushSample_buffer (s : StreamState) (x : ℝ) :
    (pushSample s x).buffer = s.buffer.set s.index (normalizeSample x) := by
  by_cases h : FFT_SIZE ≤ s.index + 1 <;> simp [pushSample, h]

lemma pushSample_index_lt (s : StreamState) (x : ℝ) :
    (pushSample s x).index < FFT_SIZE := by
  rw [pushSample_index]
  split
  · decide
  · omega

/-- Cursor and completion count after a fold: the cursor runs modulo
`FFT_SIZE` and one publish happens per completed window. -/
lemma foldl_index_published (xs : List ℝ) :
    ∀ s : StreamState, s.index < FFT_SIZE →
      (xs.foldl pushSample s).index = (s.index + xs.length) % FFT_SIZE ∧
      (xs.foldl pushSample s).published.length =
        s.published.length + (s.index + xs.length) / FFT_SIZE := by
  have hN : FFT_SIZE = 1024 := rfl
  induction xs with
  | nil =>
    intro s hs
    rw [hN] at hs ⊢
    constructor
    · simp [Nat.mod_eq_of_lt hs]
    · simp [Nat.div_eq_of_lt hs]
  | cons x t ih =>
    intro s hs
    rw [List.foldl_cons, List.length_cons]
    obtain ⟨h1, h2⟩ := ih (pushSample s x) (pushSample_index_lt s x)
    rw [h1, h2, pushSample_index, pushSample_published_length]
    rw [hN] at hs ⊢
    by_cases h : 1024 ≤ s.index + 1
    · rw [if_pos h, if_pos h]
      exact ⟨by omega, by omega⟩
    · rw [if_neg h, if_neg h]
      exact ⟨by omega, by omega⟩

/-- The cursor stays strictly below `FFT_SIZE` over any run. -/
lemma foldl_index_lt (xs : List ℝ) :
    ∀ s : StreamState, (xs.foldl pushSample s).index < FFT_SIZE ∨ xs = [] := by
  induction xs with
  | nil => intro s; exact Or.inr rfl
  | cons x t ih =>
    intro s
    left
    rw [List.foldl_cons]
    rcases ih (pushSample s x) with h | h
    · exact h
    · rw [h]
      exact pushSample_index_lt s x

/-- The buffer keeps its length over any run. -/
lemma foldl_buffer_length (xs : List ℝ) :
    ∀ s : StreamState, (xs.foldl pushSample s).buffer.length = s.buffer.length := by
  induction xs with
  | nil => intro s; rfl
  | cons x t ih =>
    intro s
    rw [List.foldl_cons, ih, pushSample_buffer, List.length_set]

/-- Fewer than a window's worth of remaining samples never touches the
shared store. -/
lemma foldl_store_of_short (xs : List ℝ) :
    ∀ s : StreamState, s.index + xs.length < FFT_SIZE →
      (xs.foldl pushSample s).store = s.store ∧
      (xs.foldl pushSample s).published = s.published := by
  induction xs with
  | nil => intro s _; exact ⟨rfl, rfl⟩
  | cons x t ih =>
    intro s hs
    rw [List.length_cons] at hs
    have h : ¬ FFT_SIZE ≤ s.index + 1 := by omega
    rw [List.foldl_cons]
    have hstep : pushSample s x =
        { buffer := s.buffer.set s.index (normalizeSample x), index := s.index + 1,
          store := s.store, published := s.published } := by
      simp [pushSample, h]
    rw [hstep]
    refine ih _ ?_
    show s.index + 1 + t.length < FFT_SIZE
    omega

/-- Any snapshot a push adds to the publish history pairs a buffer with
exactly its own spectrum. -/
lemma pushSample_published_cases (s : StreamState) (x : ℝ) (p : AudioData)
    (hp : p ∈ (pushSample s x).published) :
    p ∈ s.published ∨ p.spectrum = spectrumList p.waveform := by
  by_cases h : FFT_SIZE ≤ s.index + 1
  · simp only [pushSample, if_pos h, List.mem_append, List.mem_singleton] at hp
    rcases hp with hp | hp
    · exact Or.inl hp
    · right
      rw [hp]
  · simp only [pushSample, if_neg h] at hp
    exact Or.inl hp

lemma foldl_published_consistent (xs : List ℝ) :
    ∀ s : StreamState,
      (∀ p ∈ s.published, p.spectrum = spectrumList p.waveform) →
      ∀ p ∈ (xs.foldl pushSample s).published, p.spectrum = spectrumList p.waveform := by
  induction xs with
  | nil => intro s hs; exact hs
  | cons x t ih =>
    intro s hs
    rw [List.foldl_cons]
    apply ih
    intro p hp
    rcases pushSample_published_cases s x p hp with h | h
    · exact hs p h
    · exact h

lemma pushSample_store_cases (s : StreamState) (x : ℝ) :
    ((pushSample s x).store = s.store ∧ (pushSample s x).published = s.published) ∨
    (pushSample s x).store ∈ (pushSample s x).published := by
  by_cases h : FFT_SIZE ≤ s.index + 1
  · right
    simp [pushSample, h]
  · left
    simp [pushSample, h]

lemma foldl_store_cases (xs : List ℝ) :
    ∀ s : StreamState,
      (s.store = AudioData.new ∨ s.store ∈ s.published) →
      ((xs.foldl pushSample s).store = AudioData.new ∨
       (xs.foldl pushSample s).store ∈ (xs.foldl pushSample s).published) := by
  induction xs with
  | nil => intro s hs; exact hs
  | cons x t ih =>
    intro s hs
    rw [List.foldl_cons]
    apply ih
    rcases pushSample_store_cases s x with ⟨hst, hpub⟩ | hmem
    · rw [hst, hpub]
      exact hs
    · exact Or.inr hmem

/-- Filling the remainder of an all-zero buffer with zeros produces exactly
the all-zero publish and resets the cursor. -/
lemma foldl_zeros_fill :
    ∀ (k i : ℕ), i + (k + 1) = FFT_SIZE →
      ∀ (st : AudioData) (pub : List AudioData),
        (List.replicate (k + 1) (0:ℝ)).foldl pushSample
            { buffer := List.replicate FFT_SIZE 0, index := i, store := st, published := pub }
          = { buffer := List.replicate FFT_SIZE 0, index := 0,
              store := zeroSnap, published := pub ++ [zeroSnap] } := by
  intro k
  induction k with
  | zero =>
    intro i hi st pub
    have h : FFT_SIZE ≤ i + 1 := by omega
    simp [pushSample, h, normalizeSample_eq, zeroSnap]
  | succ k ih =>
    intro i hi st pub
    have h : ¬ FFT_SIZE ≤ i + 1 := by omega
    rw [List.replicate_succ, List.foldl_cons]
    have hstep : pushSample
        { buffer := List.replicate FFT_SIZE 0, index := i, store := st, published := pub }
        (0:ℝ) =
        { buffer := List.replicate FFT_SIZE 0, index := i + 1, store := st, published := pub } := by
      simp [pushSample, h, normalizeSample_eq]
    rw [hstep]
    exact ih (i + 1) (by omega) st pub

/-- Running a full window of silence from the fresh state publishes exactly
the all-zero snapshot and resets the cursor. -/
lemma runStream_zeros :
    runStream (List.replicate FFT_SIZE (0:ℝ)) =
      { buffer := List.replicate FFT_SIZE 0, index := 0,
        store := zeroSnap, published := [zeroSnap] } := by
  have h := foldl_zeros_fill 1023 0 (by decide) AudioData.new []
  unfold runStream
  rw [show initState =
        { buffer := List.replicate FFT_SIZE 0, index := 0,
          store := AudioData.new, published := ([] : List AudioData) } from rfl]
  rw [show (1023 + 1 : ℕ) = FFT_SIZE from rfl] at h
  rw [h, List.nil_append]

/-! ### Arithmetic facts about the base-10 logarithm -/

lemma logb_1024_add_one : Real.logb 10 1024 + 1 = Real.logb 10 10240 := by
  rw [show (1:ℝ) = Real.logb 10 10 from (Real.logb_self_eq_one (by norm_num)).symm]
  rw [← Real.logb_mul (by norm_num) (by norm_num)]
  norm_num

lemma logb_1025_ne : Real.logb 10 1025 ≠ Real.logb 10 1024 + 1 := by
  rw [logb_1024_add_one]
  exact ne_of_lt (Real.logb_lt_logb (by norm_num) (by norm_num) (by norm_num))

lemma logb_hundredth : Real.logb 10 (1 / 100 : ℝ) = -2 := by
  rw [one_div, Real.logb_inv]
  rw [show (100:ℝ) = 10 ^ (2:ℕ) from by norm_num]
  rw [Real.logb_pow, Real.logb_self_eq_one (by norm_num)]
  norm_num

lemma sum_replicate_ones : (List.replicate FFT_SIZE (1:ℝ)).sum = 1024 := by
  rw [List.sum_replicate]
  norm_num [FFT_SIZE]

lemma abs_dft_ones :
    Complex.abs (dft (List.replicate FFT_SIZE (1:ℝ)) 0) = 1024 := by
  rw [dft_bin_zero, sum_replicate_ones, Complex.abs_ofReal]
  norm_num

/-! ### Claim theorems -/

/-- Claim C1, counterexample: at the all-ones window of length `FFT_SIZE`,
bin 0 of the produced spectrum is `(log10 1024 + 1)·10`, which differs from
the claimed `log10(1024 + 1)·10`: the code (main.rs line 118) adds the
`1.0` after the logarithm, not to the magnitude before it. -/
theorem scaling_formula_counterexample :
    (spectrumList (List.replicate FFT_SIZE (1:ℝ))).getD 0 0 ≠
      scaleSpec (Complex.abs (dft (List.replicate FFT_SIZE (1:ℝ)) 0)) := by
  rw [spectrumList_getD _ 0 (by decide), abs_dft_ones]
  simp only [scale, scaleSpec]
  intro heq
  have h0 : Real.logb 10 1024 + 1 = Real.logb 10 (1024 + 1) :=
    mul_right_cancel₀ (by norm_num : (10:ℝ) ≠ 0) heq
  apply logb_1025_ne
  rw [show (1025:ℝ) = 1024 + 1 from by norm_num, ← h0]

/-- Claim C1, amended: for every window `w` and every bin `i < FFT_SIZE/2`,
the spectrum value the analyzer produces equals
`(log10 |X_i| + 1) * 10` where `X_i` is the `i`-th forward-FFT output of
`w` — the `1.0` is added to the logarithm of the magnitude, not to the
magnitude before the logarithm. -/
theorem scaling_formula_amended (w : List ℝ) (i : ℕ) (hi : i < FFT_SIZE / 2) :
    (spectrumList w).getD i 0 = (Real.logb 10 (Complex.abs (dft w i)) + 1) * 10 :=
  spectrumList_getD w i hi

/-- Witness for the amended C1 theorem: the all-ones window at bin 0. -/
theorem scaling_formula_amended_witness :
    (spectrumList (List.replicate FFT_SIZE (1:ℝ))).getD 0 0 =
      (Real.logb 10 (Complex.abs (dft (List.replicate FFT_SIZE (1:ℝ)) 0)) + 1) * 10 :=
  scaling_formula_amended (List.replicate FFT_SIZE 1) 0 (by decide)

/-- Claim C2, counterexample: the all-zero window of length `FFT_SIZE` does
NOT produce the all-zero spectrum. Every FFT magnitude is 0, so every bin
holds `(log10 0 + 1)·10`: under Mathlib's convention `log 0 = 0` that value
is `10`, and under IEEE `f32` arithmetic (the actual code) it is `-∞` —
in neither reading is it `0.0`. -/
theorem silence_counterexample :
    spectrumList (List.replicate FFT_SIZE (0:ℝ)) ≠
      List.replicate (FFT_SIZE / 2) (0:ℝ) := by
  intro h
  have h10 : (spectrumList (List.replicate FFT_SIZE (0:ℝ))).getD 0 0 = 10 := by
    rw [spectrumList_getD _ 0 (by decide), dft_replicate_zero]
    simp [scale]
  have h0 : (spectrumList (List.replicate FFT_SIZE (0:ℝ))).getD 0 0 = 0 := by
    rw [h]
    exact getD_replicate_zero (FFT_SIZE / 2) 0
  rw [h10] at h0
  norm_num at h0

/-- Claim C2, amended: for the all-zero window of length `FFT_SIZE`, every
FFT output is zero and every one of the `FFT_SIZE / 2` spectrum values
equals `(log10 0 + 1) * 10` — the floor value of the code's scaling — not
`0.0`. -/
theorem silence_spectrum_amended :
    spectrumList (List.replicate FFT_SIZE (0:ℝ)) =
      List.replicate (FFT_SIZE / 2) ((Real.logb 10 0 + 1) * 10) := by
  unfold spectrumList
  rw [List.eq_replicate_iff]
  constructor
  · simp
  · intro b hb
    simp only [List.mem_map, List.mem_range] at hb
    obtain ⟨i, hi, rfl⟩ := hb
    rw [dft_replicate_zero]
    simp [scale]

/-- Claim C6, counterexample: a valid window of length `FFT_SIZE` whose
first sample is `0.01` and whose other samples are zero has bin-0 magnitude
`0.01`, and the produced spectrum value there is `(log10 0.01 + 1)·10 = -10`,
which is negative — the output values are not all non-negative. -/
theorem spectrum_nonneg_counterexample :
    ((1/100 : ℝ) :: List.replicate (FFT_SIZE - 1) 0).length = FFT_SIZE ∧
    (spectrumList ((1/100 : ℝ) :: List.replicate (FFT_SIZE - 1) 0)).getD 0 0 < 0 := by
  constructor
  · rw [List.length_cons, List.length_replicate]
    decide
  · have hsum : ((1/100 : ℝ) :: List.replicate (FFT_SIZE - 1) 0).sum = 1/100 := by
      rw [List.sum_cons, List.sum_replicate]
      simp
    have habs :
        Complex.abs (dft ((1/100 : ℝ) :: List.replicate (FFT_SIZE - 1) 0) 0) = 1/100 := by
      rw [dft_bin_zero, hsum, Complex.abs_ofReal]
      norm_num
    rw [spectrumList_getD _ 0 (by decide), habs]
    simp only [scale]
    rw [logb_hundredth]
    norm_num

/-- Claim C6, amended: for every window `w` the analyzer output has length
exactly `FFT_SIZE / 2`; the non-negativity part of the claim fails (see the
counterexample: bins with magnitude below `0.1` come out negative). -/
theorem spectrum_length_amended (w : List ℝ) :
    (spectrumList w).length = FFT_SIZE / 2 :=
  spectrumList_length w

/-- Claim C3: every snapshot ever published into the shared store pairs a
waveform with exactly the analyzer output on that same waveform, and after
any run the store holds either the initial snapshot or one of the published
pairs — both fields are replaced together in the single exclusive update of
main.rs lines 121–123. -/
theorem snapshot_consistency (samples : List ℝ) :
    (∀ p ∈ (runStream samples).published, p.spectrum = spectrumList p.waveform) ∧
    ((runStream samples).store = AudioData.new ∨
      (runStream samples).store ∈ (runStream samples).published) := by
  constructor
  · apply foldl_published_consistent
    intro p hp
    simp [initState] at hp
  · exact foldl_store_cases samples initState (Or.inl rfl)

/-- Witness for C3: after one full window of silence, the published
snapshot's spectrum is the analyzer output on its waveform. -/
theorem snapshot_consistency_witness :
    zeroSnap.spectrum = spectrumList zeroSnap.waveform :=
  (snapshot_consistency (List.replicate FFT_SIZE 0)).1 zeroSnap
    (by rw [runStream_zeros]; exact List.mem_singleton.mpr rfl)

/-- Claim C4: from the fresh accumulator, exactly `FFT_SIZE` samples
trigger exactly one publish with the cursor back at 0; `FFT_SIZE - 1`
samples trigger none; `2·FFT_SIZE` samples — however they were grouped into
hardware buffers — trigger exactly two, and the cursor is back at 0 both
after the first window (any prefix of length `FFT_SIZE`) and at the end. -/
theorem frame_boundary (xs : List ℝ) :
    (xs.length = FFT_SIZE →
      (runStream xs).published.length = 1 ∧ (runStream xs).index = 0) ∧
    (xs.length = FFT_SIZE - 1 → (runStream xs).published.length = 0) ∧
    (xs.length = 2 * FFT_SIZE →
      (runStream xs).published.length = 2 ∧ (runStream xs).index = 0 ∧
      ∀ p q : List ℝ, xs = p ++ q → p.length = FFT_SIZE →
        (runStream p).published.length = 1 ∧ (runStream p).index = 0) := by
  have hN : FFT_SIZE = 1024 := rfl
  have key : ∀ ys : List ℝ,
      (runStream ys).index = ys.length % FFT_SIZE ∧
      (runStream ys).published.length = ys.length / FFT_SIZE := by
    intro ys
    have h := foldl_index_published ys initState (by decide)
    simpa [runStream, initState] using h
  refine ⟨?_, ?_, ?_⟩
  · intro hx
    obtain ⟨h1, h2⟩ := key xs
    rw [h1, h2, hx, hN]
    exact ⟨by norm_num, by norm_num⟩
  · intro hx
    obtain ⟨_, h2⟩ := key xs
    rw [h2, hx, hN]
  · intro hx
    obtain ⟨h1, h2⟩ := key xs
    refine ⟨by rw [h2, hx, hN], by rw [h1, hx, hN], ?_⟩
    intro p q hpq hp
    obtain ⟨hp1, hp2⟩ := key p
    rw [hp1, hp2, hp, hN]
    exact ⟨by norm_num, by norm_num⟩

/-- Witness for C4: a window of `FFT_SIZE` zeros publishes once; one of
`2·FFT_SIZE` zeros publishes twice. -/
theorem frame_boundary_witness :
    (runStream (List.replicate FFT_SIZE (0:ℝ))).published.length = 1 ∧
    (runStream (List.replicate (2 * FFT_SIZE) (0:ℝ))).published.length = 2 :=
  ⟨((frame_boundary (List.replicate FFT_SIZE 0)).1 (by simp)).1,
   (((frame_boundary (List.replicate (2 * FFT_SIZE) 0)).2.2 (by simp)).1)⟩

/-- Claim C5, code evaluation at the failing input: the only per-sample
conversion the code ever applies is `to_f32().unwrap()` on an already-`f32`
sample (the callback is declared over `&[f32]` for every dispatched sample
format, main.rs line 106) — a plain cast. A raw 16-bit magnitude such as
32767 would be stored as 32767.0: it is not divided by the type's maximum
magnitude 32768 and does not land in [-1, 1]. -/
theorem fixed_point_normalization_missing :
    normalizeSample 32767 = 32767 ∧
    normalizeSample 32767 ≠ 32767 / 32768 ∧
    ¬ normalizeSample 32767 ≤ 1 := by
  refine ⟨rfl, ?_, ?_⟩
  · rw [normalizeSample_eq]
    norm_num
  · rw [normalizeSample_eq]
    norm_num

/-- Claim C7: if the host reports no input device, startup fails with
`NoInputDeviceError` — in the code the `expect("No input device")` panic at
main.rs line 76, embedded here as an error result propagating to the
caller — and no stream thread is started, since the failure precedes
`std::thread::spawn` (line 82). -/
theorem no_input_device_fails (h : Host) (hdev : h.defaultInputDevice = none) :
    start_audio_stream h = Except.error AudioError.NoInputDeviceError ∧
    ∀ l : Launch, start_audio_stream h ≠ Except.ok l := by
  constructor
  · unfold start_audio_stream
    rw [hdev]
  · intro l
    unfold start_audio_stream
    rw [hdev]
    simp

/-- Witness for C7: the host with no input device. -/
theorem no_input_device_fails_witness :
    start_audio_stream { defaultInputDevice := none } =
      Except.error AudioError.NoInputDeviceError :=
  (no_input_device_fails { defaultInputDevice := none } rfl).1

/-- Claim C8: any read performed before the first `FFT_SIZE` samples have
arrived sees exactly the initial snapshot: an all-zero waveform of length
`FFT_SIZE` and an all-zero spectrum of length `FFT_SIZE / 2` — never a
partially filled pair. -/
theorem initial_snapshot_readable (samples : List ℝ)
    (h : samples.length < FFT_SIZE) :
    (runStream samples).store = AudioData.new ∧
    (runStream samples).store.waveform = List.replicate FFT_SIZE 0 ∧
    (runStream samples).store.spectrum = List.replicate (FFT_SIZE / 2) 0 ∧
    (runStream samples).store.waveform.length = FFT_SIZE ∧
    (runStream samples).store.spectrum.length = FFT_SIZE / 2 := by
  have hst : (runStream samples).store = AudioData.new := by
    refine (foldl_store_of_short samples initState ?_).1
    show initState.index + samples.length < FFT_SIZE
    simpa [initState] using h
  refine ⟨hst, ?_, ?_, ?_, ?_⟩ <;> rw [hst]
  · rfl
  · rfl
  · rw [show AudioData.new.waveform = List.replicate FFT_SIZE 0 from rfl,
        List.length_replicate]
  · rw [show AudioData.new.spectrum = List.replicate (FFT_SIZE / 2) 0 from rfl,
        List.length_replicate]

/-- Witness for C8: after `FFT_SIZE - 1` samples (one short of a window),
the store still holds the initial snapshot. -/
theorem initial_snapshot_readable_witness :
    (runStream (List.replicate (FFT_SIZE - 1) (0:ℝ))).store = AudioData.new :=
  (initial_snapshot_readable (List.replicate (FFT_SIZE - 1) 0)
    (by rw [List.length_replicate]; decide)).1

/-- Claim C9: the floating-point conversion path is the identity on samples
already in [-1, 1]: `to_f32` on an `f32` returns `Some(self)` and the
stored value is the sample unchanged. -/
theorem float_normalization_identity (x : ℝ) (h1 : -1 ≤ x) (h2 : x ≤ 1) :
    normalizeSample x = x :=
  normalizeSample_eq x

/-- Witness for C9 at the admissible sample 0. -/
theorem float_normalization_identity_witness :
    normalizeSample 0 = 0 :=
  float_normalization_identity 0 (neg_nonpos.mpr zero_le_one) zero_le_one

/-- Claim C10: after any sequence of processed samples — however the
hardware grouped them into buffers — the write cursor is strictly below
`FFT_SIZE` and the buffer still has length `FFT_SIZE`, so the write
`buffer[index] = sample` performed for the next delivered sample is in
bounds; the cursor was reset to 0 in the same iteration in which it reached
`FFT_SIZE` (main.rs line 124). -/
theorem cursor_in_bounds (samples : List ℝ) :
    (runStream samples).index < FFT_SIZE ∧
    (runStream samples).buffer.length = FFT_SIZE := by
  constructor
  · rcases foldl_index_lt samples initState with h | h
    · exact h
    · rw [h]
      decide
  · rw [runStream, foldl_buffer_length]
    simp [initState]

end AudioAnalyzerFFT
